import Mathlib

/-!
Verification development for the zookeeper challenge script
(`zookeeper_challenge.py`).  The Python program is shallowly embedded:
strings are Lean `String`s, Python dicts keyed by strings are total
functions with a default value, file contents are optional lists of
lines, and the fallible parts of the parser return `Except`.
-/

namespace Zoo

/-! ## Models of the Python string primitives (ASCII) -/

/-- Model of Python `str.lower` on one character (ASCII range). -/
def pyLowerChar (c : Char) : Char :=
  if 65 ≤ c.toNat ∧ c.toNat ≤ 90 then Char.ofNat (c.toNat + 32) else c

/-- Model of Python `str.upper` on one character (ASCII range). -/
def pyUpperChar (c : Char) : Char :=
  if 97 ≤ c.toNat ∧ c.toNat ≤ 122 then Char.ofNat (c.toNat - 32) else c

/-- Python `str.lower` over a whole string. -/
def strLower (s : String) : String := ⟨s.data.map pyLowerChar⟩

/-- Python `str.capitalize`: first character uppercased, the rest lowercased. -/
def pyCapitalize (s : String) : String :=
  match s.data with
  | [] => ""
  | c :: cs => ⟨pyUpperChar c :: cs.map pyLowerChar⟩

/-- Python `s[:2]`. -/
def take2 (s : String) : String := ⟨s.data.take 2⟩

/-- Python `str.strip` on a character list. -/
def stripChars (l : List Char) : List Char :=
  ((l.dropWhile Char.isWhitespace).reverse.dropWhile Char.isWhitespace).reverse

/-- Python `str.strip`. -/
def pyStrip (s : String) : String := ⟨stripChars s.data⟩

/-- Split a character list at commas, keeping empty pieces
(Python `str.split(",")` keeps them too). -/
def splitCommaChars : List Char → List (List Char)
  | [] => [[]]
  | c :: cs =>
    if c = ',' then [] :: splitCommaChars cs
    else
      match splitCommaChars cs with
      | [] => [[c]]
      | p :: ps => (c :: p) :: ps

/-- Python `[p.strip() for p in line.split(",")]` (source line 95; the names
file uses the same comma-split-and-strip shape on line 67). -/
def pySplitComma (line : String) : List String :=
  (splitCommaChars line.data).map fun l => pyStrip ⟨l⟩

/-- Split a character list at whitespace characters (pieces may be empty). -/
def splitWsChars : List Char → List (List Char)
  | [] => [[]]
  | c :: cs =>
    if c.isWhitespace then [] :: splitWsChars cs
    else
      match splitWsChars cs with
      | [] => [[c]]
      | p :: ps => (c :: p) :: ps

/-- Python `str.split()` with no argument: split at whitespace runs,
dropping empty pieces. -/
def pyWsSplit (s : String) : List String :=
  ((splitWsChars s.data).filter fun l => !l.isEmpty).map fun l => ⟨l⟩

/-- Does the pattern occur as a leading block of the list? -/
def hasPre : List Char → List Char → Bool
  | [], _ => true
  | _ :: _, [] => false
  | a :: as, b :: bs => a == b && hasPre as bs

/-- Occurrence of a pattern anywhere in the list. -/
def hasSub (pat : List Char) : List Char → Bool
  | [] => hasPre pat []
  | c :: cs => hasPre pat (c :: cs) || hasSub pat cs

/-- Python substring containment, the `in` operator on strings. -/
def strContains (s pat : String) : Bool := hasSub pat.data s.data

/-- Python `str.endswith`. -/
def strEndsWith (s t : String) : Bool := hasPre t.data.reverse s.data.reverse

/-- Python `str.replace` on character lists, for a nonempty pattern (the
program only replaces the pattern "born in").  The fuel argument makes the
recursion structural; initialized to the list's length it never runs out,
because every step consumes at least one character. -/
def replFuel (pat repl : List Char) : Nat → List Char → List Char
  | _, [] => []
  | 0, l => l
  | fuel + 1, c :: cs =>
    if hasPre pat (c :: cs) && !pat.isEmpty then
      repl ++ replFuel pat repl fuel ((c :: cs).drop pat.length)
    else
      c :: replFuel pat repl fuel cs

/-- Python `str.replace`. -/
def pyReplace (s pat repl : String) : String :=
  ⟨replFuel pat.data repl.data s.data.length s.data⟩

/-- Python `sep.join(parts)`. -/
def joinSep (sep : String) : List String → String
  | [] => ""
  | [x] => x
  | x :: y :: xs => x ++ sep ++ joinSep sep (y :: xs)

/-- Decimal digit character. -/
def digChar (d : Nat) : Char := Char.ofNat (48 + d)

/-- Decimal digit list of a natural number, with structural fuel (a number
below `fuel` has fewer than `fuel` digits, so fuel `n + 1` never runs out). -/
def decCharsF : Nat → Nat → List Char
  | 0, _ => []
  | fuel + 1, n =>
    if n < 10 then [digChar n]
    else decCharsF fuel (n / 10) ++ [digChar (n % 10)]

/-- Decimal digits of a natural number: model of Python `str` on a
nonnegative int. -/
def decChars (n : Nat) : List Char := decCharsF (n + 1) n

def decStr (n : Nat) : String := ⟨decChars n⟩

/-- Python `str` on an int (sign handling). -/
def intStr (i : Int) : String :=
  if i < 0 then "-" ++ decStr (-i).toNat else decStr i.toNat

/-- Python `str.zfill(2)` on an unsigned digit string (the program only
applies it to `str` of a positive count, so no sign handling is needed). -/
def zfill2 (s : String) : String :=
  if s.length < 2 then ⟨List.replicate (2 - s.length) '0' ++ s.data⟩ else s

/-- Digit-run accumulator for the model of Python `int()`. -/
def digitsValAux : Nat → List Char → Option Nat
  | acc, [] => some acc
  | acc, c :: cs => if c.isDigit then digitsValAux (acc * 10 + (c.toNat - 48)) cs else none

/-- Value of a nonempty all-digit character run. -/
def digitsVal : List Char → Option Nat
  | [] => none
  | c :: cs => digitsValAux 0 (c :: cs)

/-- Model of Python `int()` on an already-stripped token: optional sign
followed by at least one ASCII digit; `none` models the `ValueError`. -/
def pyInt (s : String) : Option Int :=
  match s.data with
  | '-' :: rest => (digitsVal rest).map fun n => -(n : Int)
  | '+' :: rest => (digitsVal rest).map fun n => (n : Int)
  | l => (digitsVal l).map fun n => (n : Int)

/-! ## The program

Dictionaries keyed by strings (`species_counts`, the name pool, `habitats`)
are modeled as total functions with default values (`0`, `[]`) or, where the
source relies on the dict's insertion order (`habitats`), as association
lists in insertion order. -/

/-- The module-level `species_counts = {}` of line 5: every key reads 0. -/
def species_counts0 : String → Nat := fun _ => 0

/-- The `season_dates` dict lookup with default of lines 21-29:
`season_dates.get(season_key, "-01-01")`. -/
def season_dates_get (season_key : String) : String :=
  if season_key = "spring" then "-03-21"
  else if season_key = "summer" then "-06-21"
  else if season_key = "fall" then "-09-21"
  else if season_key = "winter" then "-12-21"
  else "-01-01"

/-- `gen_birth_date` (lines 7-31).  `date.today().year` is ambient state and
is passed explicitly; the age reaches this function as an already converted
int (line 99 and line 118), on which Python's `int(age_years)` is the
identity. -/
def gen_birth_date (current_year : Int) (age_years : Int) (season_born : String) : String :=
  let birth_year := current_year - age_years
  intStr birth_year ++ season_dates_get (strLower season_born)

/-- `gen_unique_id` (lines 33-50): returns the identifier and the updated
counter dict (the `if key not in dict: dict[key] = 0` plus `+= 1` of lines
41-44 is exactly an increment of the defaulted-to-0 entry). -/
def gen_unique_id (species_counts : String → Nat) (species : String) :
    String × (String → Nat) :=
  let species_key := strLower species
  let count := species_counts species_key + 1
  let pfx := pyCapitalize (take2 species)
  let count_str := zfill2 (decStr count)
  (pfx ++ count_str, fun k => if k = species_key then count else species_counts k)

/-- Counter state after a sequence of `gen_unique_id` calls. -/
def runCounts (c : String → Nat) : List String → (String → Nat)
  | [] => c
  | sp :: sps => runCounts (gen_unique_id c sp).2 sps

/-- One line of the names file (lines 61-68 of `load_names`): a stripped
line ending in "Names:" opens a section (and resets that species' list),
any other nonempty line inside a section extends the list with the
comma-split, stripped names. -/
def namesLineStep (acc : (String → List String) × String) (l : String) :
    (String → List String) × String :=
  let line := pyStrip l
  if strEndsWith line "Names:" then
    let cur := strLower ((pyWsSplit line).headD "")
    (fun k => if k = cur then [] else acc.1 k, cur)
  else if line ≠ "" ∧ acc.2 ≠ "" then
    (fun k => if k = acc.2 then acc.1 acc.2 ++ pySplitComma line else acc.1 k, acc.2)
  else acc

/-- `load_names` (lines 52-71).  The file content is an optional list of
lines (`none` models a missing file, caught as `FileNotFoundError`); the
second component is the list of printed error messages. -/
def load_names (file_path : String) (content : Option (List String)) :
    (String → List String) × List String :=
  match content with
  | none => (fun _ => [], ["Error: " ++ file_path ++ " not found."])
  | some ls => ((ls.foldl namesLineStep (fun _ => [], "")).1, [])

/-- Python exception kinds the processing code can raise. -/
inductive PyErr where
  | indexError
  | valueError
deriving DecidableEq

/-- The parsed fields of one input line (lines 95-115). -/
structure AnimalRecord where
  age : Int
  sex : String
  species : String
  season : String
  color : String
  weight : String
  origin : String
deriving DecidableEq

/-- Python list indexing: out of range raises `IndexError`. -/
def ix {α : Type} (l : List α) (i : Nat) : Except PyErr α :=
  match l[i]? with
  | some v => Except.ok v
  | none => Except.error PyErr.indexError

/-- Python `l[-1]`: the last element, `IndexError` on an empty list. -/
def ixLast {α : Type} (l : List α) : Except PyErr α :=
  match l.getLast? with
  | some v => Except.ok v
  | none => Except.error PyErr.indexError

/-- Python `int(s)`: `ValueError` when the token is not numeric. -/
def toIntExc (s : String) : Except PyErr Int :=
  match pyInt s with
  | some v => Except.ok v
  | none => Except.error PyErr.valueError

/-- The record parsing of lines 95-115, with the source's evaluation order
(age before sex, the whole first segment before segment 1, and so on);
every statement that can raise propagates its exception. -/
def parseLine (line : String) : Except PyErr AnimalRecord :=
  let parts := pySplitComma line
  match ix parts 0 with
  | Except.error e => Except.error e
  | Except.ok p0 =>
    let first_segment := pyWsSplit p0
    match ix first_segment 0 with
    | Except.error e => Except.error e
    | Except.ok tok0 =>
      match toIntExc tok0 with
      | Except.error e => Except.error e
      | Except.ok age =>
        match ix first_segment 3 with
        | Except.error e => Except.error e
        | Except.ok sex =>
          match ixLast first_segment with
          | Except.error e => Except.error e
          | Except.ok species =>
            match ix parts 1 with
            | Except.error e => Except.error e
            | Except.ok p1 =>
              let season :=
                if strContains p1 "born in" then pyStrip (pyReplace p1 "born in" "")
                else "unknown"
              match ix parts 2 with
              | Except.error e => Except.error e
              | Except.ok color =>
                match ix parts 3 with
                | Except.error e => Except.error e
                | Except.ok weight =>
                  Except.ok { age, sex, species, season, color, weight,
                              origin := joinSep ", " (parts.drop 4) }

/-- The name assignment of lines 121-125: pop the first pooled name, or use
"Unnamed" when the species has no (remaining) names. -/
def assign_name (species_names : String → List String) (species_key : String) :
    String × (String → List String) :=
  match species_names species_key with
  | [] => ("Unnamed", species_names)
  | n :: rest => (n, fun k => if k = species_key then rest else species_names k)

/-- Names produced by iterating `assign_name` over the species keys of the
input records, in input order. -/
def assignAll (species_names : String → List String) : List String → List String
  | [] => []
  | k :: ks =>
    let p := assign_name species_names k
    p.1 :: assignAll p.2 ks

/-- The output line f-string of line 131. -/
def fmtLine (uid nm bd color sex weight origin today : String) : String :=
  uid ++ "; " ++ nm ++ "; birth date: " ++ bd ++ "; " ++ color ++ "; " ++ sex ++ "; " ++
    weight ++ "; " ++ origin ++ "; arrived " ++ today

/-- The `habitats` bucket update of lines 133-135 on an insertion-ordered
association list: append to the species' bucket, creating it at the end on
first encounter. -/
def addHabitat : List (String × List String) → String → String → List (String × List String)
  | [], key, l => [(key, [l])]
  | (k, ls) :: rest, key, l =>
    if k = key then (k, ls ++ [l]) :: rest else (k, ls) :: addHabitat rest key l

/-- The habitats dict as built by the loop when the records arrive as
(species_key, output_line) pairs in input order: exactly the repeated
bucket update of lines 133-135. -/
def buildHabitats (recs : List (String × String)) : List (String × List String) :=
  recs.foldl (fun h r => addHabitat h r.1 r.2) []

/-- The mutable state of the processing loop. -/
structure LoopState where
  counts : String → Nat
  pool : String → List String
  habitats : List (String × List String)

/-- The body of the loop over input lines (lines 88-135): strip, skip
blanks, parse, derive birth date, id and name, format and bucket. -/
def processLine (current_year : Int) (today : String) (st : LoopState) (rawLine : String) :
    Except PyErr LoopState :=
  let line := pyStrip rawLine
  if line = "" then Except.ok st
  else
    match parseLine line with
    | Except.error e => Except.error e
    | Except.ok r =>
      let birth_date := gen_birth_date current_year r.age r.season
      let idc := gen_unique_id st.counts r.species
      let species_key := strLower r.species
      let np := assign_name st.pool species_key
      let output_line := fmtLine idc.1 np.1 birth_date r.color r.sex r.weight r.origin today
      Except.ok ⟨idc.2, np.2, addHabitat st.habitats species_key output_line⟩

/-- The loop of lines 88-135 over all input lines; an uncaught exception
aborts it. -/
def runLines (current_year : Int) (today : String) :
    LoopState → List String → Except PyErr LoopState
  | st, [] => Except.ok st
  | st, l :: ls =>
    match processLine current_year today st l with
    | Except.error e => Except.error e
    | Except.ok st' => runLines current_year today st' ls

/-- The fixed habitat order of line 140. -/
def habitat_order : List String := ["hyena", "lion", "bear", "tiger"]

/-- First-match association-list lookup: `habitats[species]` /
`species in habitats`. -/
def lookupA : List (String × List String) → String → Option (List String)
  | [], _ => none
  | (k, v) :: rest, key => if k = key then some v else lookupA rest key

/-- The habitat blocks in the order the report writer emits them (lines
138-155): the fixed order first, filtered to present species, then the
remaining species in dict (= insertion) order. -/
def reportBlocks (habitats : List (String × List String)) : List (String × List String) :=
  (habitat_order.filterMap fun sp => (lookupA habitats sp).map fun animals => (sp, animals))
    ++ habitats.filter fun p => !habitat_order.contains p.1

/-- The `f_out.write` calls for one habitat (lines 144-147 and 152-155):
header chunk, one chunk per animal, trailing blank chunk. -/
def habitatChunks (sp : String) (animals : List String) : List String :=
  (pyCapitalize sp ++ " Habitat:\n\n") :: animals.map (fun a => a ++ "\n") ++ ["\n"]

/-- All chunks written to the output file. -/
def writeReportChunks (habitats : List (String × List String)) : List String :=
  ((reportBlocks habitats).map fun p => habitatChunks p.1 p.2).flatten

/-- Observable outcome of one `process_zoo_data` run: the sequence of chunks
written to the output file (`none` when the file is never created), the
printed error messages in order, and an uncaught exception if one escaped. -/
structure RunResult where
  written : Option (List String)
  messages : List String
  exn : Option PyErr
deriving DecidableEq

/-- `process_zoo_data` (lines 73-158).  File contents are optional line
lists (`none` = the file does not exist).  A missing input file is caught
(lines 157-158); any `PyErr` from the loop escapes uncaught and the output
file is never opened (the write block of lines 138-155 comes after the
whole loop). -/
def process_zoo_data (current_year : Int) (today names_path : String)
    (inputC namesC : Option (List String)) : RunResult :=
  let ln := load_names names_path namesC
  match inputC with
  | none => ⟨none, ln.2 ++ ["Error: Input file not found."], none⟩
  | some lines =>
    match runLines current_year today ⟨species_counts0, ln.1, []⟩ lines with
    | Except.error e => ⟨none, ln.2, some e⟩
    | Except.ok st => ⟨some (writeReportChunks st.habitats), ln.2, none⟩

/-! ## Spec-side definitions

These follow the specification's words, to be compared with the
definitions above that follow the source. -/

/-- Spec side: the decimal representation of `k`, zero-padded to at least
two digits (a single leading zero for one-digit numbers, nothing else). -/
def specPadded (k : Nat) : String :=
  if (decStr k).length = 1 then "0" ++ decStr k else decStr k

/-- Spec side: the keys of a list in the order first encountered. -/
def dedupFO (l : List String) : List String :=
  l.foldl (fun acc k => if acc.contains k then acc else acc ++ [k]) []

/-- Spec side: the output lines of one species' records, in input order. -/
def linesOf (recs : List (String × String)) (sp : String) : List String :=
  (recs.filter fun r => r.1 == sp).map Prod.snd

/-- Spec side: the species order the report lists — the fixed preferred
order (species present in the input only), then every other species in the
order first encountered. -/
def specOrder (recs : List (String × String)) : List String :=
  habitat_order.filter (fun sp => (recs.map Prod.fst).contains sp)
    ++ (dedupFO (recs.map Prod.fst)).filter (fun sp => !habitat_order.contains sp)

/-! ## Supporting lemmas -/

theorem decCharsF_succ_ne_nil (fuel n : Nat) : decCharsF (fuel + 1) n ≠ [] := by
  simp only [decCharsF]
  split <;> simp

theorem decChars_ne_nil (n : Nat) : decChars n ≠ [] := decCharsF_succ_ne_nil n n

theorem decChars_length2 (n : Nat) (h : 10 ≤ n) : 2 ≤ (decChars n).length := by
  obtain ⟨m, rfl⟩ : ∃ m, n = m + 1 := ⟨n - 1, by omega⟩
  show 2 ≤ (decCharsF (m + 1 + 1) (m + 1)).length
  rw [decCharsF, if_neg (by omega)]
  rw [List.length_append]
  have h1 : 0 < (decCharsF (m + 1) ((m + 1) / 10)).length :=
    List.length_pos.mpr (decCharsF_succ_ne_nil m ((m + 1) / 10))
  simp only [List.length_cons, List.length_nil]
  omega

theorem decStr_length_pos (n : Nat) : 0 < (decStr n).length :=
  List.length_pos.mpr (decChars_ne_nil n)

theorem zfill2_decStr (k : Nat) : zfill2 (decStr k) = specPadded k := by
  have h1 : 0 < (decStr k).length := decStr_length_pos k
  unfold zfill2 specPadded
  by_cases h : (decStr k).length = 1
  · rw [if_pos (by omega), if_pos h, h]
    show (⟨List.replicate 1 '0' ++ (decStr k).data⟩ : String) = "0" ++ decStr k
    rfl
  · rw [if_neg (by omega), if_neg h]

theorem char_toNat_ofNat {n : Nat} (h : n < 55296) : (Char.ofNat n).toNat = n := by
  simp [Char.ofNat, Nat.isValidChar, h, Char.toNat, Char.ofNatAux, UInt32.ofNat', UInt32.toNat]

theorem char_toNat_inj {a b : Char} (h : a.toNat = b.toNat) : a = b :=
  Char.ext (UInt32.ext h)

theorem pyLowerChar_toNat (c : Char) :
    (pyLowerChar c).toNat = if 65 ≤ c.toNat ∧ c.toNat ≤ 90 then c.toNat + 32 else c.toNat := by
  unfold pyLowerChar
  split
  · next h => exact char_toNat_ofNat (by omega)
  · rfl

theorem pyUpperChar_toNat (c : Char) :
    (pyUpperChar c).toNat = if 97 ≤ c.toNat ∧ c.toNat ≤ 122 then c.toNat - 32 else c.toNat := by
  unfold pyUpperChar
  split
  · next h => exact char_toNat_ofNat (by omega)
  · rfl

/-- Two characters with the same lowercasing have the same uppercasing. -/
theorem pyUpper_congr {a b : Char} (h : pyLowerChar a = pyLowerChar b) :
    pyUpperChar a = pyUpperChar b := by
  have h' : (pyLowerChar a).toNat = (pyLowerChar b).toNat := by rw [h]
  rw [pyLowerChar_toNat, pyLowerChar_toNat] at h'
  apply char_toNat_inj
  rw [pyUpperChar_toNat, pyUpperChar_toNat]
  split at h' <;> split at h' <;> split <;> split <;> omega

/-- Strings equal up to letter case have the same capitalized 2-prefix. -/
theorem capitalize_take2_congr {s1 s2 : String} (h : strLower s1 = strLower s2) :
    pyCapitalize (take2 s1) = pyCapitalize (take2 s2) := by
  obtain ⟨l1⟩ := s1
  obtain ⟨l2⟩ := s2
  have hd : l1.map pyLowerChar = l2.map pyLowerChar := congrArg String.data h
  cases l1 with
  | nil =>
    cases l2 with
    | nil => rfl
    | cons b bs => simp at hd
  | cons a as =>
    cases l2 with
    | nil => simp at hd
    | cons b bs =>
      simp only [List.map_cons, List.cons.injEq] at hd
      obtain ⟨hab, hasbs⟩ := hd
      show (⟨pyUpperChar a :: (as.take 1).map pyLowerChar⟩ : String) =
        ⟨pyUpperChar b :: (bs.take 1).map pyLowerChar⟩
      rw [pyUpper_congr hab, List.map_take, List.map_take, hasbs]

theorem runCounts_apply (calls : List String) (c : String → Nat) (key : String) :
    runCounts c calls key = c key + calls.countP (fun s => strLower s == key) := by
  induction calls generalizing c with
  | nil => simp [runCounts]
  | cons sp sps ih =>
    rw [runCounts, ih]
    simp only [gen_unique_id, List.countP_cons]
    by_cases h : key = strLower sp
    · simp [h, beq_iff_eq]
      omega
    · rw [if_neg h, if_neg (by simp [beq_iff_eq]; exact fun hc => h hc.symm)]
      omega

theorem buildHabitats_append (recs : List (String × String)) (r : String × String) :
    buildHabitats (recs ++ [r]) = addHabitat (buildHabitats recs) r.1 r.2 := by
  simp [buildHabitats, List.foldl_append]

theorem dedupFO_append (l : List String) (k : String) :
    dedupFO (l ++ [k]) =
      if (dedupFO l).contains k then dedupFO l else dedupFO l ++ [k] := by
  simp [dedupFO, List.foldl_append]

theorem mem_dedupFO (l : List String) (x : String) : x ∈ dedupFO l ↔ x ∈ l := by
  induction l using List.reverseRecOn with
  | nil => simp [dedupFO]
  | append_singleton l k ih =>
    rw [dedupFO_append]
    by_cases hc : (dedupFO l).contains k
    · rw [if_pos hc]
      have hk : k ∈ dedupFO l := by simpa using hc
      simp only [List.mem_append, List.mem_singleton, ih]
      constructor
      · exact fun h => Or.inl h
      · rintro (h | rfl)
        · exact h
        · exact ih.mp hk
    · rw [if_neg hc]
      simp [ih]

theorem nodup_dedupFO (l : List String) : (dedupFO l).Nodup := by
  induction l using List.reverseRecOn with
  | nil => simp [dedupFO]
  | append_singleton l k ih =>
    rw [dedupFO_append]
    by_cases hc : (dedupFO l).contains k
    · rwa [if_pos hc]
    · rw [if_neg hc]
      have hk : k ∉ dedupFO l := by simpa using hc
      simp [List.nodup_append, ih, hk]

theorem contains_dedupFO (l : List String) (x : String) :
    (dedupFO l).contains x = l.contains x := by
  by_cases h : x ∈ l <;> simp [h, mem_dedupFO]

theorem addHabitat_map_mem {S : List String} {k : String} (g : String → List String)
    (nd : S.Nodup) (hk : k ∈ S) (v : String) :
    addHabitat (S.map fun sp => (sp, g sp)) k v =
      S.map fun sp => (sp, if sp = k then g sp ++ [v] else g sp) := by
  induction S with
  | nil => simp at hk
  | cons a S' ih =>
    simp only [List.map_cons, addHabitat]
    by_cases hak : a = k
    · rw [if_pos hak, hak, if_pos rfl]
      have hknot : k ∉ S' := hak ▸ (List.nodup_cons.mp nd).1
      congr 1
      apply List.map_congr_left
      intro sp hsp
      have hne : sp ≠ k := fun h => hknot (h ▸ hsp)
      rw [if_neg hne]
    · rw [if_neg hak, if_neg hak]
      have hk' : k ∈ S' := by
        rcases List.mem_cons.mp hk with h | h
        · exact absurd h.symm hak
        · exact h
      rw [ih (List.nodup_cons.mp nd).2 hk']

theorem addHabitat_map_not_mem {S : List String} {k : String} (g : String → List String)
    (hk : k ∉ S) (v : String) :
    addHabitat (S.map fun sp => (sp, g sp)) k v =
      (S.map fun sp => (sp, g sp)) ++ [(k, [v])] := by
  induction S with
  | nil => rfl
  | cons a S' ih =>
    have hak : a ≠ k := fun h => hk (h ▸ List.mem_cons_self a S')
    simp only [List.map_cons, addHabitat, if_neg hak, List.cons_append]
    rw [ih (fun h => hk (List.mem_cons_of_mem a h))]

theorem linesOf_append (recs : List (String × String)) (r : String × String) (sp : String) :
    linesOf (recs ++ [r]) sp =
      linesOf recs sp ++ if r.1 == sp then [r.2] else [] := by
  simp only [linesOf, List.filter_append, List.map_append]
  congr 1
  cases h : r.1 == sp with
  | true => simp [List.filter_cons, h]
  | false => simp [List.filter_cons, h]

/-- The habitats dict after bucketing: its keys are the species keys in
first-encounter order, each bound to its records' lines in input order. -/
theorem buildHabitats_eq (recs : List (String × String)) :
    buildHabitats recs =
      (dedupFO (recs.map Prod.fst)).map fun sp => (sp, linesOf recs sp) := by
  induction recs using List.reverseRecOn with
  | nil => rfl
  | append_singleton recs r ih =>
    rw [buildHabitats_append, ih]
    have hmap : (recs ++ [r]).map Prod.fst = recs.map Prod.fst ++ [r.1] := by simp
    rw [hmap, dedupFO_append]
    by_cases hc : (dedupFO (recs.map Prod.fst)).contains r.1
    · rw [if_pos hc]
      have hmem : r.1 ∈ dedupFO (recs.map Prod.fst) := by simpa using hc
      rw [addHabitat_map_mem _ (nodup_dedupFO _) hmem]
      apply List.map_congr_left
      intro sp hsp
      rw [linesOf_append]
      by_cases hsp1 : sp = r.1
      · rw [if_pos hsp1, hsp1]
        simp
      · rw [if_neg hsp1]
        have : (r.1 == sp) = false := by
          simp [beq_iff_eq]
          exact fun h => hsp1 h.symm
        rw [this]
        simp
    · rw [if_neg hc]
      have hnmem : r.1 ∉ dedupFO (recs.map Prod.fst) := by simpa using hc
      rw [addHabitat_map_not_mem _ hnmem]
      rw [List.map_append]
      congr 1
      · apply List.map_congr_left
        intro sp hsp
        rw [linesOf_append]
        have hspne : (r.1 == sp) = false := by
          simp only [beq_eq_false_iff_ne, ne_eq]
          intro h
          exact hnmem (h ▸ hsp)
        rw [hspne]
        simp
      · have hlempty : linesOf recs r.1 = [] := by
          have hnin : r.1 ∉ recs.map Prod.fst := fun h => hnmem ((mem_dedupFO _ _).mpr h)
          unfold linesOf
          have hfil : recs.filter (fun p => p.1 == r.1) = [] := by
            rw [List.filter_eq_nil_iff]
            intro p hp
            intro hcontra
            have hpr : p.1 = r.1 := by simpa using hcontra
            exact hnin (hpr ▸ List.mem_map_of_mem Prod.fst hp)
          rw [hfil, List.map_nil]
        simp [linesOf_append, hlempty]

theorem lookupA_map (S : List String) (g : String → List String) (key : String) :
    lookupA (S.map fun sp => (sp, g sp)) key =
      if S.contains key then some (g key) else none := by
  induction S with
  | nil => rfl
  | cons a S' ih =>
    simp only [List.map_cons, lookupA]
    by_cases hak : a = key
    · rw [if_pos hak, hak]
      simp
    · rw [if_neg hak, ih]
      have hka : ¬ key = a := fun h => hak h.symm
      simp [List.contains_cons, hka]

theorem filterMap_if_eq_filter_map {α β : Type} (p : α → Bool) (f : α → β) (l : List α) :
    (l.filterMap fun x => if p x then some (f x) else none) =
      (l.filter p).map f := by
  induction l with
  | nil => rfl
  | cons a l' ih =>
    by_cases h : p a <;> simp [List.filterMap_cons, List.filter_cons, h, ih]

theorem ix_ok {l : List String} {i : Nat} (h : i < l.length) :
    ix l i = Except.ok (l[i]?.getD "") := by
  unfold ix
  rw [List.getElem?_eq_getElem h]
  rfl

theorem ixLast_ok {l : List String} (h : 0 < l.length) :
    ixLast l = Except.ok (l.getLast?.getD "") := by
  unfold ixLast
  cases hl : l.getLast? with
  | none => rw [List.getLast?_eq_none_iff] at hl; subst hl; simp at h
  | some v => simp [hl]

theorem splitCommaChars_ne_nil (l : List Char) : splitCommaChars l ≠ [] := by
  cases l with
  | nil => simp [splitCommaChars]
  | cons c cs =>
    simp only [splitCommaChars]
    split
    · simp
    · split <;> simp

theorem ix_err {α : Type} {l : List α} {i : Nat} (h : l.length ≤ i) :
    ix l i = Except.error PyErr.indexError := by
  unfold ix
  rw [List.getElem?_eq_none h]

theorem ix_error_kind {α : Type} {l : List α} {i : Nat} {e : PyErr}
    (h : ix l i = Except.error e) : e = PyErr.indexError := by
  unfold ix at h
  cases hl : l[i]? <;> rw [hl] at h
  · injection h with h'
    exact h'.symm
  · exact Except.noConfusion h

theorem ixLast_error_kind {α : Type} {l : List α} {e : PyErr}
    (h : ixLast l = Except.error e) : e = PyErr.indexError := by
  unfold ixLast at h
  cases hl : l.getLast? <;> rw [hl] at h
  · injection h with h'
    exact h'.symm
  · exact Except.noConfusion h

/-- A line with fewer than 4 comma segments never parses, and the raised
exception is classified exactly: a ValueError when segment 0 has a first
token that fails integer conversion (line 99 runs before any missing index
is reached), an IndexError in every other case — a missing `first_segment`
token (lines 98-100) or the missing `parts[1]`/`parts[2]`/`parts[3]`
segment (lines 105-112), `parts[3]` being unavoidable. -/
theorem parseLine_short_classified (line : String)
    (hlen : (pySplitComma line).length < 4) :
    parseLine line = Except.error
      (if pyWsSplit ((pySplitComma line).getD 0 "") ≠ [] ∧
          pyInt ((pyWsSplit ((pySplitComma line).getD 0 "")).getD 0 "") = none
       then PyErr.valueError else PyErr.indexError) := by
  simp only [List.getD_eq_getElem?_getD]
  have h3 : ix (pySplitComma line) 3 = Except.error PyErr.indexError := ix_err (by omega)
  have hp0 : 0 < (pySplitComma line).length := by
    have := splitCommaChars_ne_nil line.data
    unfold pySplitComma
    simpa [List.length_pos] using this
  have h0 : ix (pySplitComma line) 0 = Except.ok ((pySplitComma line)[0]?.getD "") :=
    ix_ok hp0
  cases htoks : pyWsSplit ((pySplitComma line)[0]?.getD "") with
  | nil =>
    rw [if_neg (fun hc => hc.1 rfl)]
    have h1 : ix ([] : List String) 0 = Except.error PyErr.indexError := by simp [ix]
    simp [parseLine, h0, htoks, h1]
  | cons t ts =>
    have h1 : ix (t :: ts) 0 = Except.ok t := by simp [ix]
    cases hint : pyInt t with
    | none =>
      rw [if_pos ⟨by simp, by simp [hint]⟩]
      have h2 : toIntExc t = Except.error PyErr.valueError := by
        unfold toIntExc
        rw [hint]
      simp [parseLine, h0, htoks, h1, h2]
    | some a =>
      rw [if_neg (fun hc => by simp [hint] at hc)]
      have h2 : toIntExc t = Except.ok a := by
        unfold toIntExc
        rw [hint]
      rcases hx : ix (t :: ts) 3 with e | sex
      · obtain rfl := ix_error_kind hx
        simp [parseLine, h0, htoks, h1, h2, hx]
      rcases hy : ixLast (t :: ts) with e | sp
      · obtain rfl := ixLast_error_kind hy
        simp [parseLine, h0, htoks, h1, h2, hx, hy]
      rcases hz : ix (pySplitComma line) 1 with e | p1
      · obtain rfl := ix_error_kind hz
        simp [parseLine, h0, htoks, h1, h2, hx, hy, hz]
      rcases hw : ix (pySplitComma line) 2 with e | c2
      · obtain rfl := ix_error_kind hw
        simp [parseLine, h0, htoks, h1, h2, hx, hy, hz, hw]
      simp [parseLine, h0, htoks, h1, h2, hx, hy, hz, hw, h3]

theorem mem_addHabitat {h : List (String × List String)} {k v : String} :
    ∀ p ∈ addHabitat h k v, ∀ s ∈ p.2, (∃ q ∈ h, s ∈ q.2) ∨ s = v := by
  induction h with
  | nil =>
    intro p hp s hs
    simp only [addHabitat, List.mem_singleton] at hp
    subst hp
    exact Or.inr (List.mem_singleton.mp hs)
  | cons q' rest ih =>
    obtain ⟨k', ls⟩ := q'
    intro p hp s hs
    simp only [addHabitat] at hp
    by_cases hkk : k' = k
    · rw [if_pos hkk] at hp
      rcases List.mem_cons.mp hp with rfl | hp'
      · rcases List.mem_append.mp hs with h1 | h1
        · exact Or.inl ⟨(k', ls), List.mem_cons_self _ _, h1⟩
        · exact Or.inr (List.mem_singleton.mp h1)
      · exact Or.inl ⟨p, List.mem_cons_of_mem _ hp', hs⟩
    · rw [if_neg hkk] at hp
      rcases List.mem_cons.mp hp with rfl | hp'
      · exact Or.inl ⟨(k', ls), List.mem_cons_self _ _, hs⟩
      · rcases ih p hp' s hs with ⟨q, hq, hsq⟩ | h1
        · exact Or.inl ⟨q, List.mem_cons_of_mem _ hq, hsq⟩
        · exact Or.inr h1

theorem addHabitat_ne_nil (h : List (String × List String)) (k v : String) :
    addHabitat h k v ≠ [] := by
  cases h with
  | nil => simp [addHabitat]
  | cons q rest =>
    obtain ⟨k', ls⟩ := q
    simp only [addHabitat]
    split <;> simp

theorem reportBlocks_ne_nil {habitats : List (String × List String)} (h : habitats ≠ []) :
    reportBlocks habitats ≠ [] := by
  cases habitats with
  | nil => exact absurd rfl h
  | cons q rest =>
    obtain ⟨k, ls⟩ := q
    by_cases hk : habitat_order.contains k
    · apply List.ne_nil_of_mem (a := (k, ls))
      apply List.mem_append_left
      apply List.mem_filterMap.mpr
      refine ⟨k, by simpa using hk, by simp [lookupA]⟩
    · have hk' : k ∉ habitat_order := by simpa using hk
      apply List.ne_nil_of_mem (a := (k, ls))
      apply List.mem_append_right
      apply List.mem_filter.mpr
      exact ⟨List.mem_cons_self _ _, by simp [hk']⟩

theorem writeReportChunks_ne_nil {habitats : List (String × List String)}
    (h : habitats ≠ []) : writeReportChunks habitats ≠ [] := by
  have hb := reportBlocks_ne_nil h
  unfold writeReportChunks
  cases hrb : reportBlocks habitats with
  | nil => exact absurd hrb hb
  | cons b bs =>
    obtain ⟨sp, animals⟩ := b
    simp [habitatChunks]

/-- Running the loop with an empty name pool: it never errors on blank or
parsable lines, the pool stays empty, every bucketed line carries the
"Unnamed" placeholder, and the habitats dict is nonempty as soon as one
non-blank line was processed. -/
theorem runLines_empty_pool (current_year : Int) (today : String) (lines : List String) :
    ∀ st : LoopState, st.pool = (fun _ => ([] : List String)) →
    (∀ p ∈ st.habitats, ∀ l ∈ p.2,
      ∃ uid bd c sx w o, l = fmtLine uid "Unnamed" bd c sx w o today) →
    (∀ l ∈ lines, pyStrip l = "" ∨ ∃ r, parseLine (pyStrip l) = Except.ok r) →
    ∃ st', runLines current_year today st lines = Except.ok st' ∧
      st'.pool = (fun _ => []) ∧
      (∀ p ∈ st'.habitats, ∀ l ∈ p.2,
        ∃ uid bd c sx w o, l = fmtLine uid "Unnamed" bd c sx w o today) ∧
      ((st.habitats ≠ [] ∨ ∃ l ∈ lines, pyStrip l ≠ "") → st'.habitats ≠ []) := by
  induction lines with
  | nil =>
    intro st hpool hinv _
    refine ⟨st, rfl, hpool, hinv, ?_⟩
    rintro (h | ⟨l, hl, _⟩)
    · exact h
    · simp at hl
  | cons l ls ih =>
    intro st hpool hinv H
    by_cases hb : pyStrip l = ""
    · have hstep : processLine current_year today st l = Except.ok st := by
        simp [processLine, hb]
      have hrun : runLines current_year today st (l :: ls) =
          runLines current_year today st ls := by
        rw [runLines, hstep]
      obtain ⟨st', h1, h2, h3, h4⟩ :=
        ih st hpool hinv (fun x hx => H x (List.mem_cons_of_mem l hx))
      refine ⟨st', hrun ▸ h1, h2, h3, ?_⟩
      rintro (h | ⟨x, hx, hxb⟩)
      · exact h4 (Or.inl h)
      · rcases List.mem_cons.mp hx with rfl | hx'
        · exact absurd hb hxb
        · exact h4 (Or.inr ⟨x, hx', hxb⟩)
    · rcases H l (List.mem_cons_self l ls) with h | ⟨r, hr⟩
      · exact absurd h hb
      have hstep : processLine current_year today st l = Except.ok
          ⟨(gen_unique_id st.counts r.species).2, (fun _ => []),
            addHabitat st.habitats (strLower r.species)
              (fmtLine (gen_unique_id st.counts r.species).1 "Unnamed"
                (gen_birth_date current_year r.age r.season) r.color r.sex r.weight
                r.origin today)⟩ := by
        simp only [processLine, if_neg hb, hr, hpool]
        rfl
      obtain ⟨st', h1, h2, h3, h4⟩ := ih
        ⟨(gen_unique_id st.counts r.species).2, (fun _ => []),
          addHabitat st.habitats (strLower r.species)
            (fmtLine (gen_unique_id st.counts r.species).1 "Unnamed"
              (gen_birth_date current_year r.age r.season) r.color r.sex r.weight
              r.origin today)⟩
        rfl
        (by
          intro p hp s hs
          rcases mem_addHabitat p hp s hs with ⟨q, hq, hsq⟩ | rfl
          · exact hinv q hq s hsq
          · exact ⟨(gen_unique_id st.counts r.species).1,
              gen_birth_date current_year r.age r.season,
              r.color, r.sex, r.weight, r.origin, rfl⟩)
        (fun x hx => H x (List.mem_cons_of_mem l hx))
      refine ⟨st', ?_, h2, h3, fun _ => h4 (Or.inl (addHabitat_ne_nil _ _ _))⟩
      rw [runLines, hstep]
      exact h1

/-! ## Claims -/

/-- C1: the k-th `gen_unique_id` call for a species S — counting calls whose
species argument equals S up to letter case — returns the first two
characters of the raw argument, capitalized, followed by the decimal
representation of k zero-padded to at least two digits; for k ≥ 100 the
digit string is the full, untruncated representation of k. -/
theorem claim_C1_id_format (prior : List String) (S : String) :
    (gen_unique_id (runCounts species_counts0 prior) S).1 =
      pyCapitalize (take2 S) ++
        specPadded (prior.countP (fun s => strLower s == strLower S) + 1) ∧
    2 ≤ (specPadded (prior.countP (fun s => strLower s == strLower S) + 1)).length ∧
    (100 ≤ prior.countP (fun s => strLower s == strLower S) + 1 →
      specPadded (prior.countP (fun s => strLower s == strLower S) + 1) =
        decStr (prior.countP (fun s => strLower s == strLower S) + 1)) := by
  refine ⟨?_, ?_, ?_⟩
  · show pyCapitalize (take2 S) ++
        zfill2 (decStr (runCounts species_counts0 prior (strLower S) + 1)) = _
    simp only [runCounts_apply, species_counts0, Nat.zero_add, zfill2_decStr]
  · unfold specPadded
    by_cases h : (decStr (prior.countP (fun s => strLower s == strLower S) + 1)).length = 1
    · rw [if_pos h]
      rw [String.length_append, h]
      rfl
    · rw [if_neg h]
      have := decStr_length_pos (prior.countP (fun s => strLower s == strLower S) + 1)
      omega
  · intro hk
    unfold specPadded
    rw [if_neg]
    have := decChars_length2 (prior.countP (fun s => strLower s == strLower S) + 1) (by omega)
    show ¬ (decChars (prior.countP (fun s => strLower s == strLower S) + 1)).length = 1
    omega

set_option maxRecDepth 8000 in
/-- Witness for C1 at a concrete input: after 99 "hyena" calls the 100th
call returns "Hy100", the digit string grown rather than truncated. -/
theorem claim_C1_id_format_witness :
    (gen_unique_id (runCounts species_counts0 (List.replicate 99 "hyena")) "hyena").1 =
      "Hy100" := by
  have h := claim_C1_id_format (List.replicate 99 "hyena") "hyena"
  rw [h.1, h.2.2 (by decide)]
  rfl

/-- C2: parsing the example line yields age 4, sex "female", species
"hyena", season "spring", color "tan color", weight "70 pounds", and the
origin rejoined with ", " so that the embedded comma is preserved. -/
theorem claim_C2_round_trip :
    parseLine "4 year old female hyena, born in spring, tan color, 70 pounds, from Friguia Park, Tunisia" =
      Except.ok { age := 4, sex := "female", species := "hyena", season := "spring",
                  color := "tan color", weight := "70 pounds",
                  origin := "from Friguia Park, Tunisia" } := by
  rfl

/-- C3: the birth date is the current year minus the age, dash-joined with
the month-day selected by the lowercased season from the fixed table, and
01-01 for any season outside the table; in particular age 4 with "spring"
gives "{Y-4}-03-21" and with "bogus" gives "{Y-4}-01-01". -/
theorem claim_C3_birth_date (current_year age : Int) (s : String) :
    gen_birth_date current_year age s =
      intStr (current_year - age) ++
        (if strLower s = "spring" then "-03-21"
         else if strLower s = "summer" then "-06-21"
         else if strLower s = "fall" then "-09-21"
         else if strLower s = "winter" then "-12-21"
         else "-01-01") ∧
    gen_birth_date current_year 4 "spring" = intStr (current_year - 4) ++ "-03-21" ∧
    gen_birth_date current_year 4 "bogus" = intStr (current_year - 4) ++ "-01-01" := by
  refine ⟨rfl, rfl, rfl⟩

/-- C4: name assignment is first-in-first-out per species key: the i-th
animal whose key is X (0-based, so `countP` over the earlier keys) receives
the name at that position in X's pool; when the pool is too short — either
exhausted or never loaded — the animal receives the placeholder "Unnamed". -/
theorem claim_C4_fifo (pool : String → List String) (keys : List String) (i : Nat)
    (hi : i < keys.length) :
    (assignAll pool keys).getD i "" =
      (if (keys.take i).countP (fun k => k == keys.getD i "") < (pool (keys.getD i "")).length
       then (pool (keys.getD i "")).getD ((keys.take i).countP (fun k => k == keys.getD i "")) ""
       else "Unnamed") := by
  induction keys generalizing pool i with
  | nil => simp at hi
  | cons k ks ih =>
    cases i with
    | zero =>
      simp only [List.getD_cons_zero, List.take_zero, List.countP_nil]
      cases hp : pool k with
      | nil => simp [assignAll, assign_name, hp]
      | cons n rest => simp [assignAll, assign_name, hp]
    | succ j =>
      have hj : j < ks.length := by
        simp only [List.length_cons] at hi; omega
      simp only [List.getD_cons_succ, List.take_succ_cons, List.countP_cons]
      show (assignAll (assign_name pool k).2 ks).getD j "" = _
      rw [ih _ _ hj]
      simp only [List.getD_eq_getElem?_getD, beq_iff_eq]
      by_cases hk : k = ks[j]?.getD "" <;> cases hp : pool k
      · rw [← hk]
        simp [assign_name, hp]
      · next n rest =>
        rw [← hk]
        simp only [assign_name, hp, if_pos rfl]
        simp [Nat.add_lt_add_iff_right, List.getElem?_cons_succ]
      · simp [assign_name, hp, hk]
      · next n rest =>
        have h2 : (assign_name pool k).2 (ks[j]?.getD "") = pool (ks[j]?.getD "") := by
          simp only [assign_name, hp]
          rw [if_neg (fun h => hk h.symm)]
        rw [h2, if_neg hk]
        simp

/-- Witness for C4: with a two-name hyena pool and three hyenas, the second
hyena gets the second name and the third gets the placeholder. -/
theorem claim_C4_fifo_witness :
    (assignAll (fun k => if k = "hyena" then ["Shenzi", "Banzai"] else [])
        ["hyena", "hyena", "hyena"]).getD 1 "" = "Banzai" ∧
    (assignAll (fun k => if k = "hyena" then ["Shenzi", "Banzai"] else [])
        ["hyena", "hyena", "hyena"]).getD 2 "" = "Unnamed" := by
  constructor
  · rw [claim_C4_fifo _ _ 1 (by decide)]
    rfl
  · rw [claim_C4_fifo _ _ 2 (by decide)]
    rfl

/-- C10: two non-empty species strings equal up to letter case use the same
counter (the updated counter dicts coincide) and `gen_unique_id` returns
exactly the same identifier string for both, whatever the counter state. -/
theorem claim_C10_case_insensitive (counts : String → Nat) (s1 s2 : String)
    (_h1 : s1 ≠ "") (_h2 : s2 ≠ "") (h : strLower s1 = strLower s2) :
    (gen_unique_id counts s1).1 = (gen_unique_id counts s2).1 ∧
    (gen_unique_id counts s1).2 = (gen_unique_id counts s2).2 := by
  constructor
  · show pyCapitalize (take2 s1) ++ zfill2 (decStr (counts (strLower s1) + 1)) =
      pyCapitalize (take2 s2) ++ zfill2 (decStr (counts (strLower s2) + 1))
    rw [capitalize_take2_congr h, h]
  · show (fun k => if k = strLower s1 then counts (strLower s1) + 1 else counts k) =
      (fun k => if k = strLower s2 then counts (strLower s2) + 1 else counts k)
    rw [h]

/-- Witness for C10 at the concrete casings "HYENA" and "hyena". -/
theorem claim_C10_case_insensitive_witness :
    (gen_unique_id species_counts0 "HYENA").1 = (gen_unique_id species_counts0 "hyena").1 ∧
    (gen_unique_id species_counts0 "HYENA").2 = (gen_unique_id species_counts0 "hyena").2 :=
  claim_C10_case_insensitive species_counts0 "HYENA" "hyena" (by decide) (by decide) (by rfl)

/-- C5: the serialized report lists the fixed preferred species (hyena,
lion, bear, tiger) first — each only if present — then every other species
in first-encounter order, each species' block holding its lines in input
order; in particular for lion, hyena, zebra arriving in that order the
"Hyena Habitat:" header precedes "Lion Habitat:", which precedes
"Zebra Habitat:". -/
theorem claim_C5_report_order (recs : List (String × String)) :
    reportBlocks (buildHabitats recs) =
      ((specOrder recs).map fun sp => (sp, linesOf recs sp)) ∧
    writeReportChunks (buildHabitats [("lion", "L1"), ("hyena", "H1"), ("zebra", "Z1")]) =
      ["Hyena Habitat:\n\n", "H1\n", "\n", "Lion Habitat:\n\n", "L1\n", "\n",
       "Zebra Habitat:\n\n", "Z1\n", "\n"] := by
  constructor
  · rw [buildHabitats_eq]
    unfold reportBlocks specOrder
    rw [List.map_append]
    congr 1
    · rw [List.filterMap_congr (g := fun sp =>
        if (dedupFO (recs.map Prod.fst)).contains sp then some (sp, linesOf recs sp)
        else none) (fun sp _ => by
          rw [lookupA_map]
          by_cases hc : (dedupFO (recs.map Prod.fst)).contains sp <;> simp [hc])]
      rw [filterMap_if_eq_filter_map]
      have hfil : (habitat_order.filter fun sp => (dedupFO (recs.map Prod.fst)).contains sp) =
          habitat_order.filter fun sp => (recs.map Prod.fst).contains sp :=
        List.filter_congr (fun sp _ => contains_dedupFO _ _)
      rw [hfil]
    · rw [List.filter_map]
      rfl
  · rfl

/-- Counterexample to C8 as stated: the non-blank line "x, b, c" has 3
comma segments, yet the uncaught error is the age conversion's ValueError
(raised on line 99, before any missing index is reached), not an
index-out-of-range error. -/
theorem claim_C8_counterexample :
    pyStrip "x, b, c" ≠ "" ∧ (pySplitComma "x, b, c").length < 4 ∧
    parseLine "x, b, c" = Except.error PyErr.valueError ∧
    processLine 2026 "2026-02-03" ⟨species_counts0, fun _ => [], []⟩ "x, b, c" =
      Except.error PyErr.valueError ∧
    PyErr.valueError ≠ PyErr.indexError :=
  ⟨by decide, by decide, by rfl, by rfl, by decide⟩

/-- C8 (amended): blank input lines are skipped without effect, and any
non-blank line with fewer than 4 comma segments makes the processing step
raise an uncaught error whose kind is pinned exactly: a value error when
the first segment's first token exists but fails integer conversion, an
index-out-of-range error in every other case. -/
theorem claim_C8_blank_and_short (current_year : Int) (today : String) (st : LoopState)
    (rawLine : String) :
    (pyStrip rawLine = "" → processLine current_year today st rawLine = Except.ok st) ∧
    (pyStrip rawLine ≠ "" → (pySplitComma (pyStrip rawLine)).length < 4 →
      processLine current_year today st rawLine = Except.error
        (if pyWsSplit ((pySplitComma (pyStrip rawLine)).getD 0 "") ≠ [] ∧
            pyInt ((pyWsSplit ((pySplitComma (pyStrip rawLine)).getD 0 "")).getD 0 "") = none
         then PyErr.valueError else PyErr.indexError)) := by
  constructor
  · intro h
    simp [processLine, h]
  · intro h hlen
    have he := parseLine_short_classified (pyStrip rawLine) hlen
    simp [processLine, h, he]

/-- Witness for C8 (amended): a whitespace line is skipped, the 3-segment
line "4, b, c" (integer age token) aborts with an index error, and
"x, b, c" (non-integer age token) aborts with a value error. -/
theorem claim_C8_blank_and_short_witness :
    processLine 2026 "2026-02-03" ⟨species_counts0, fun _ => [], []⟩ "   " =
      Except.ok ⟨species_counts0, fun _ => [], []⟩ ∧
    processLine 2026 "2026-02-03" ⟨species_counts0, fun _ => [], []⟩ "4, b, c" =
      Except.error PyErr.indexError ∧
    processLine 2026 "2026-02-03" ⟨species_counts0, fun _ => [], []⟩ "x, b, c" =
      Except.error PyErr.valueError := by
  refine ⟨?_, ?_, ?_⟩
  · exact (claim_C8_blank_and_short 2026 "2026-02-03"
      ⟨species_counts0, fun _ => [], []⟩ "   ").1 (by rfl)
  · exact ((claim_C8_blank_and_short 2026 "2026-02-03"
      ⟨species_counts0, fun _ => [], []⟩ "4, b, c").2 (by decide) (by decide)).trans (by rfl)
  · exact ((claim_C8_blank_and_short 2026 "2026-02-03"
      ⟨species_counts0, fun _ => [], []⟩ "x, b, c").2 (by decide) (by decide)).trans (by rfl)

/-- Counterexample to C9 as stated: the line "4 year, ..." deviates from
the expected pattern in token count (2 tokens in the first segment), and
the parser faults with an index-out-of-range error instead of silently
misassigning fields. -/
theorem claim_C9_counterexample :
    (pyWsSplit ((pySplitComma
        "4 year, born in spring, tan color, 70 pounds, from X").getD 0 "")).length = 2 ∧
    parseLine "4 year, born in spring, tan color, 70 pounds, from X" =
      Except.error PyErr.indexError :=
  ⟨by rfl, by rfl⟩

/-- C9 (amended): on a line with at least 4 comma segments whose first
segment has at least 4 whitespace tokens, the first of them
integer-convertible, the parser does not fault for any such token count: it
silently takes token 0 as the age, token 3 as the sex and the last token as
the species.  (With fewer than 4 tokens it faults instead, per the
counterexample.) -/
theorem claim_C9_token_misassign (line : String) (a : Int)
    (hp : 4 ≤ (pySplitComma line).length)
    (ht : 4 ≤ (pyWsSplit ((pySplitComma line).getD 0 "")).length)
    (ha : pyInt ((pyWsSplit ((pySplitComma line).getD 0 "")).getD 0 "") = some a) :
    ∃ r, parseLine line = Except.ok r ∧
      r.age = a ∧
      r.sex = (pyWsSplit ((pySplitComma line).getD 0 "")).getD 3 "" ∧
      r.species = (pyWsSplit ((pySplitComma line).getD 0 "")).getLastD "" := by
  simp only [List.getD_eq_getElem?_getD] at ht ha
  have h0 : ix (pySplitComma line) 0 = Except.ok ((pySplitComma line)[0]?.getD "") :=
    ix_ok (by omega)
  have h1 : ix (pyWsSplit ((pySplitComma line)[0]?.getD "")) 0 =
      Except.ok ((pyWsSplit ((pySplitComma line)[0]?.getD ""))[0]?.getD "") := ix_ok (by omega)
  have h2 : toIntExc ((pyWsSplit ((pySplitComma line)[0]?.getD ""))[0]?.getD "") =
      Except.ok a := by unfold toIntExc; rw [ha]
  have h3 : ix (pyWsSplit ((pySplitComma line)[0]?.getD "")) 3 =
      Except.ok ((pyWsSplit ((pySplitComma line)[0]?.getD ""))[3]?.getD "") := ix_ok (by omega)
  have h4 : ixLast (pyWsSplit ((pySplitComma line)[0]?.getD "")) =
      Except.ok ((pyWsSplit ((pySplitComma line)[0]?.getD "")).getLast?.getD "") :=
    ixLast_ok (by omega)
  have h5 : ix (pySplitComma line) 1 = Except.ok ((pySplitComma line)[1]?.getD "") :=
    ix_ok (by omega)
  have h6 : ix (pySplitComma line) 2 = Except.ok ((pySplitComma line)[2]?.getD "") :=
    ix_ok (by omega)
  have h7 : ix (pySplitComma line) 3 = Except.ok ((pySplitComma line)[3]?.getD "") :=
    ix_ok (by omega)
  refine ⟨{ age := a,
            sex := (pyWsSplit ((pySplitComma line).getD 0 "")).getD 3 "",
            species := (pyWsSplit ((pySplitComma line).getD 0 "")).getLastD "",
            season :=
              if strContains ((pySplitComma line).getD 1 "") "born in" then
                pyStrip (pyReplace ((pySplitComma line).getD 1 "") "born in" "")
              else "unknown",
            color := (pySplitComma line).getD 2 "",
            weight := (pySplitComma line).getD 3 "",
            origin := joinSep ", " ((pySplitComma line).drop 4) }, ?_, rfl, rfl, rfl⟩
  simp [parseLine, h0, h1, h2, h3, h4, h5, h6, h7]

/-- Witness for C9 (amended) on a 7-token first segment: token 3 ("big")
lands in the sex field and the last token ("hyena") in the species field. -/
theorem claim_C9_token_misassign_witness :
    ∃ r, parseLine "4 year old big spotted female hyena, born in winter, gray color, 100 pounds" =
        Except.ok r ∧ r.age = 4 ∧ r.sex = "big" ∧ r.species = "hyena" := by
  obtain ⟨r, h1, h2, h3, h4⟩ := claim_C9_token_misassign
    "4 year old big spotted female hyena, born in winter, gray color, 100 pounds" 4
    (by decide) (by decide) (by rfl)
  exact ⟨r, h1, h2, h3.trans (by rfl), h4.trans (by rfl)⟩

/-- C7: with the names file missing, the loader reports the error and
returns the empty pool instead of raising; on an input of blank or parsable
lines, at least one non-blank, the run continues, still writes a populated
(nonempty) output file, and every record line carries the placeholder name
"Unnamed". -/
theorem claim_C7_missing_names (current_year : Int) (today names_path : String)
    (lines : List String)
    (H : ∀ l ∈ lines, pyStrip l = "" ∨ ∃ r, parseLine (pyStrip l) = Except.ok r)
    (H2 : ∃ l ∈ lines, pyStrip l ≠ "") :
    load_names names_path none =
      (fun _ => [], ["Error: " ++ names_path ++ " not found."]) ∧
    ∃ st, runLines current_year today ⟨species_counts0, fun _ => [], []⟩ lines =
        Except.ok st ∧
      process_zoo_data current_year today names_path (some lines) none =
        ⟨some (writeReportChunks st.habitats),
         ["Error: " ++ names_path ++ " not found."], none⟩ ∧
      writeReportChunks st.habitats ≠ [] ∧
      ∀ p ∈ st.habitats, ∀ l ∈ p.2, ∃ uid bd c sx w o,
        l = fmtLine uid "Unnamed" bd c sx w o today := by
  obtain ⟨st', h1, h2, h3, h4⟩ :=
    runLines_empty_pool current_year today lines ⟨species_counts0, fun _ => [], []⟩ rfl
      (by intro p hp; simp at hp) H
  have hne : st'.habitats ≠ [] := h4 (Or.inr H2)
  refine ⟨rfl, st', h1, ?_, writeReportChunks_ne_nil hne, h3⟩
  unfold process_zoo_data
  simp only [load_names]
  rw [h1]

/-- Witness for C7: one well-formed input line, missing names file — the
run writes a nonempty report whose only record is named "Unnamed". -/
theorem claim_C7_missing_names_witness :
    load_names "animalNames.txt" none =
      (fun _ => [], ["Error: " ++ "animalNames.txt" ++ " not found."]) ∧
    ∃ st, runLines 2026 "2026-02-03" ⟨species_counts0, fun _ => [], []⟩
        ["4 year old female hyena, born in spring, tan color, 70 pounds, from Friguia Park, Tunisia"] =
        Except.ok st ∧
      process_zoo_data 2026 "2026-02-03" "animalNames.txt"
          (some ["4 year old female hyena, born in spring, tan color, 70 pounds, from Friguia Park, Tunisia"])
          none =
        ⟨some (writeReportChunks st.habitats),
         ["Error: " ++ "animalNames.txt" ++ " not found."], none⟩ ∧
      writeReportChunks st.habitats ≠ [] ∧
      ∀ p ∈ st.habitats, ∀ l ∈ p.2, ∃ uid bd c sx w o,
        l = fmtLine uid "Unnamed" bd c sx w o "2026-02-03" := by
  apply claim_C7_missing_names
  · intro l hl
    rcases List.mem_singleton.mp hl with rfl
    exact Or.inr ⟨{ age := 4, sex := "female", species := "hyena", season := "spring",
                    color := "tan color", weight := "70 pounds",
                    origin := "from Friguia Park, Tunisia" }, by rfl⟩
  · exact ⟨"4 year old female hyena, born in spring, tan color, 70 pounds, from Friguia Park, Tunisia",
      List.mem_singleton.mpr rfl, by decide⟩

/-- C6: with the input file missing (and the names file present), the run
creates no output file, prints exactly the one input-file error message,
and lets no exception escape. -/
theorem claim_C6_missing_input (current_year : Int) (today names_path : String)
    (names_lines : List String) :
    process_zoo_data current_year today names_path none (some names_lines) =
      ⟨none, ["Error: Input file not found."], none⟩ := by
  rfl

end Zoo
